import Mathlib

/-!
Verification of the BUILDVERI backend's bid-lifecycle core.

This file gives a shallow embedding, in Lean 4, of the bid/project
lifecycle code of the repository:

* `src/models/bid.model.js` (the Bid schema: pre-save hook, `updateStatus`,
  `addNegotiation`, `findCompetingBids`, the unique (project, vendor) index);
* `src/models/project.model.js` (the Project schema: pre-save hook,
  `updateStatus`);
* `src/services/bid.service.js` (`BidService`: `submitBid`, `updateBid`,
  `selectBid`, `rejectBid`, `deleteBid`, `negotiateBid`,
  `_validateVendorEligibility`, `_calculateBidStatistics`,
  `_clearProjectBidCaches`, the TTL caches).

JavaScript numbers are embedded as exact rationals (`ℚ`), dates as integer
millisecond timestamps, MongoDB ObjectIds as strings.  MongoDB sessions are
embedded explicitly: writes issued with the session are staged and applied
only on commit; writes issued without the session hit the database
immediately.  Each service operation returns its result together with the
database state after the call, so partial effects of failed calls are
observable in the model exactly as they are on a real database.
-/

deriving instance DecidableEq for Except

/-- ObjectIds are embedded as strings. -/
abbrev OId := String

/-- `ApiError(statusCode, message)` from `src/utils/apiError.js`. -/
structure ApiError where
  statusCode : Nat
  message : String
deriving DecidableEq, Repr

/-- The Bid status enum of `bid.model.js`. -/
inductive BidStatus
  | DRAFT | PENDING | IN_REVIEW | ACCEPTED | REJECTED | WITHDRAWN
deriving DecidableEq, Repr

/-- Rendering of a `BidStatus` as the string literal used in the schema. -/
def BidStatus.name : BidStatus → String
  | .DRAFT => "DRAFT"
  | .PENDING => "PENDING"
  | .IN_REVIEW => "IN_REVIEW"
  | .ACCEPTED => "ACCEPTED"
  | .REJECTED => "REJECTED"
  | .WITHDRAWN => "WITHDRAWN"

/-- The Project status enum of `project.model.js`. -/
inductive ProjectStatus
  | DRAFT | OPEN | IN_REVIEW | IN_PROGRESS | ON_HOLD | COMPLETED | CANCELLED
deriving DecidableEq, Repr

/-- One entry of `status.history` on a Bid (`bid.model.js`). -/
structure BidHistoryEntry where
  status : BidStatus
  timestamp : Nat
  reason : Option String
deriving DecidableEq, Repr

/-- One entry of `status.history` on a Project (`project.model.js`). -/
structure ProjectHistoryEntry where
  status : ProjectStatus
  timestamp : Nat
  reason : Option String
deriving DecidableEq, Repr

/-- One item of `proposedCost.breakdown` (`costBreakdownSchema`). -/
structure CostItem where
  category : String
  description : String
  amount : ℚ
  quantity : Option ℚ
deriving DecidableEq, Repr

/-- One milestone of `bidTimelineSchema.milestones`. -/
structure Milestone where
  title : String
  expectedCompletionDate : ℚ
  paymentPercentage : ℚ
deriving DecidableEq, Repr

/-- `bidTimelineSchema`: proposed start date, estimated duration, milestones. -/
structure BidTimeline where
  proposedStartDate : ℚ
  durationValue : ℚ
  durationUnit : String
  milestones : List Milestone
deriving DecidableEq, Repr

/-- One entry of `negotiations` on a Bid. -/
structure Negotiation where
  initiator : String
  kind : String
  message : Option String
  status : String
  timestamp : Nat
deriving DecidableEq, Repr

/-- The Bid document (`bidSchema`), restricted to the fields the lifecycle
logic reads or writes. -/
structure Bid where
  id : OId
  project : OId
  vendor : OId
  costTotal : ℚ
  costCurrency : String
  costBreakdown : List CostItem
  timeline : BidTimeline
  proposalSummary : String
  statusCurrent : BidStatus
  statusHistory : List BidHistoryEntry
  negotiations : List Negotiation
  submittedAt : Option Nat
  lastUpdated : Nat
  clientViewed : Bool
deriving DecidableEq, Repr

/-- The Project document (`projectSchema`), restricted to the fields the
lifecycle logic reads or writes. -/
structure Project where
  id : OId
  client : OId
  projectType : String
  minExperience : Option ℚ
  minRating : Option ℚ
  statusCurrent : ProjectStatus
  statusHistory : List ProjectHistoryEntry
  updatedAt : Nat
  lastActivityAt : Nat
deriving DecidableEq, Repr

/-- The vendor profile (`vendor.profile.model.js`), restricted to the fields
read by the bid service.  `status` is one of active, inactive, suspended. -/
structure Vendor where
  id : OId
  user : OId
  status : String
  services : List String
  yearsInBusiness : ℚ
  ratingsAverage : ℚ
  isVerified : Bool
deriving DecidableEq, Repr

/-- Remove whitespace from both ends of a character list (JavaScript
`String.prototype.trim`). -/
def jsTrim (l : List Char) : List Char :=
  ((l.dropWhile Char.isWhitespace).reverse.dropWhile Char.isWhitespace).reverse

/-- `sanitizeText` from `bid.service.js`: drop every angle bracket, then
trim surrounding whitespace. -/
def sanitizeText (s : String) : String :=
  String.mk (jsTrim (s.data.filter (fun c => c ≠ '<' ∧ c ≠ '>')))

/-- The `validTransitions` table of `bidSchema.methods.updateStatus`
(`bid.model.js`). -/
def validTransitions : BidStatus → List BidStatus
  | .DRAFT => [.PENDING, .WITHDRAWN]
  | .PENDING => [.IN_REVIEW, .WITHDRAWN, .REJECTED]
  | .IN_REVIEW => [.ACCEPTED, .REJECTED, .PENDING]
  | .ACCEPTED => [.IN_REVIEW]
  | .REJECTED => [.IN_REVIEW]
  | .WITHDRAWN => [.PENDING]

/-- The error message of `updateStatus` on an invalid transition. -/
def invalidTransitionMsg (cur next : BidStatus) : String :=
  "Invalid status transition from " ++ cur.name ++ " to " ++ next.name

/-- `bidSchema.pre('save')`: refresh `metadata.lastUpdated`; if
`status.current` was modified since load, push a history entry carrying no
reason, and set `metadata.submittedAt` on first entry into PENDING.
`statusModified` embeds Mongoose's `isModified('status.current')`. -/
def bidPreSave (now : Nat) (statusModified : Bool) (b : Bid) : Bid :=
  let b1 := { b with lastUpdated := now }
  if statusModified then
    let b2 := { b1 with statusHistory :=
      b1.statusHistory ++ [⟨b1.statusCurrent, now, none⟩] }
    if b2.statusCurrent = .PENDING ∧ b2.submittedAt = none then
      { b2 with submittedAt := some now }
    else b2
  else b1

/-- `bid.save()` on a document loaded from the database: the pre-save hook
runs with `isModified('status.current')` computed against the loaded
document `orig`. -/
def Bid.saveDoc (orig b : Bid) (now : Nat) : Bid :=
  bidPreSave now (decide (b.statusCurrent ≠ orig.statusCurrent)) b

/-- `bid.save()` on a newly constructed document: every set path counts as
modified, so the pre-save hook pushes a history entry. -/
def Bid.saveNew (b : Bid) (now : Nat) : Bid :=
  bidPreSave now true b

/-- `bidSchema.methods.updateStatus(newStatus, reason)`: reject pairs
outside `validTransitions` with an `ApiError` naming both states, otherwise
set the status, push a history entry carrying the reason, and save (which
runs the pre-save hook). -/
def Bid.updateStatus (b : Bid) (newStatus : BidStatus) (reason : Option String)
    (now : Nat) : Except ApiError Bid :=
  if newStatus ∈ validTransitions b.statusCurrent then
    let b1 := { b with statusCurrent := newStatus,
                       statusHistory :=
                         b.statusHistory ++ [⟨newStatus, now, reason⟩] }
    .ok (Bid.saveDoc b b1 now)
  else
    .error ⟨400, invalidTransitionMsg b.statusCurrent newStatus⟩

/-- `bidSchema.methods.addNegotiation`: push the record (timestamped) and
save; the status is untouched, so the pre-save hook pushes no history. -/
def Bid.addNegotiation (b : Bid) (initiator kind : String)
    (message : Option String) (now : Nat) : Bid :=
  let b1 := { b with negotiations :=
    b.negotiations ++ [⟨initiator, kind, message, "pending", now⟩] }
  Bid.saveDoc b b1 now

/-- `projectSchema.pre('save')`: refresh the metadata timestamps; if
`status.current` was modified, push a history entry carrying no reason. -/
def projectPreSave (now : Nat) (statusModified : Bool) (p : Project) : Project :=
  let p1 := { p with updatedAt := now, lastActivityAt := now }
  if statusModified then
    { p1 with statusHistory := p1.statusHistory ++ [⟨p1.statusCurrent, now, none⟩] }
  else p1

/-- `project.save()` on a loaded document. -/
def Project.saveDoc (orig p : Project) (now : Nat) : Project :=
  projectPreSave now (decide (p.statusCurrent ≠ orig.statusCurrent)) p

/-! ## Database and session model -/

/-- The persistence layer: bid and project collections, vendor profiles,
and the (user, profileId) pairs of client profiles. -/
structure DB where
  bids : List Bid
  projects : List Project
  vendors : List Vendor
  clients : List (OId × OId)
deriving DecidableEq, Repr

/-- `Bid.findById`. -/
def DB.findBid (db : DB) (i : OId) : Option Bid :=
  db.bids.find? (fun b => b.id = i)

/-- Write a bid document back (or insert it if absent). -/
def DB.saveBid (db : DB) (b : Bid) : DB :=
  if db.bids.any (fun x => x.id = b.id) then
    { db with bids := db.bids.map (fun x => if x.id = b.id then b else x) }
  else
    { db with bids := db.bids ++ [b] }

/-- `Bid.findByIdAndDelete`. -/
def DB.deleteBid (db : DB) (i : OId) : DB :=
  { db with bids := db.bids.filter (fun b => b.id ≠ i) }

/-- Write a project document back. -/
def DB.saveProject (db : DB) (p : Project) : DB :=
  { db with projects := db.projects.map (fun x => if x.id = p.id then p else x) }

/-- `Project.findOne({_id, client})`: the project by id, owned by the
given client profile. -/
def DB.findProjectOwned (db : DB) (pid clientProfileId : OId) : Option Project :=
  db.projects.find? (fun p => p.id = pid ∧ p.client = clientProfileId)

/-- `ClientProfile.findOne({user})` as used by `_getClientProfile`. -/
def DB.findClientProfile (db : DB) (userId : OId) : Option OId :=
  (db.clients.find? (fun c => c.1 = userId)).map (fun c => c.2)

/-- `VendorProfile.findOne({user})`. -/
def DB.findVendorByUser (db : DB) (userId : OId) : Option Vendor :=
  db.vendors.find? (fun v => v.user = userId)

/-- JavaScript `a > b` where `a` may be `undefined`: `undefined > b` is
false.  Used for the optional preference thresholds in the eligibility
check. -/
def jsGtOpt (a : Option ℚ) (b : ℚ) : Bool :=
  match a with
  | some x => decide (b < x)
  | none => false

/-! ## Schema validation (the validators run by `save`) -/

/-- Validators of one milestone: required title, payment percentage in
[0, 100]. -/
def milestoneValid (m : Milestone) : Bool :=
  m.title ≠ "" ∧ 0 ≤ m.paymentPercentage ∧ m.paymentPercentage ≤ 100

/-- Validators of `bidTimelineSchema`: start date not in the past
(relative to validation time), positive duration, valid milestones. -/
def timelineValid (now : Nat) (t : BidTimeline) : Bool :=
  (now : ℚ) ≤ t.proposedStartDate ∧ 1 ≤ t.durationValue ∧
    t.milestones.all milestoneValid

/-- Validators of one cost-breakdown item: non-negative amount, quantity
(when present) at least 1. -/
def costItemValid (c : CostItem) : Bool :=
  decide (0 ≤ c.amount) &&
    (match c.quantity with | none => true | some q => decide (1 ≤ q))

/-- The document-level validators of `bidSchema` that `save` runs:
non-negative total, valid breakdown items, summary of at least 100
characters, valid timeline.  There is no validator relating the milestone
payment percentages to each other. -/
def bidSchemaValid (now : Nat) (b : Bid) : Bool :=
  0 ≤ b.costTotal ∧ b.costBreakdown.all costItemValid ∧
    100 ≤ b.proposalSummary.length ∧ timelineValid now b.timeline

/-! ## BidService -/

namespace BidService

/-- `_validateVendorEligibility(vendor, project)`: the four rules, in
source order, first failure winning.  The service list is waived when it
is empty or contains the wildcard entry `"NA"`.  The vendor's
`isVerified` flag is never consulted. -/
def validateVendorEligibility (vendor : Vendor) (project : Project) :
    Except ApiError Unit :=
  if vendor.status ≠ "active" then
    .error ⟨400, "Vendor account is not active"⟩
  else if vendor.services ≠ [] ∧ "NA" ∉ vendor.services ∧
      project.projectType ∉ vendor.services then
    .error ⟨400, "Project type does not match vendor services"⟩
  else if jsGtOpt project.minExperience vendor.yearsInBusiness then
    .error ⟨400, "Vendor does not meet minimum experience requirement"⟩
  else if jsGtOpt project.minRating vendor.ratingsAverage then
    .error ⟨400, "Vendor does not meet minimum rating requirement"⟩
  else
    .ok ()

/-- The input of `submitBid` (the simplified bid request). -/
structure BidRequest where
  proposedCost : ℚ
  startDate : ℚ
  duration : ℚ
  teamSize : ℚ
  proposal : String
deriving DecidableEq, Repr

/-- `_calculateMilestoneDates`: months are 30 days of milliseconds. -/
def msInMonth (durationMonths : ℚ) : ℚ :=
  durationMonths * 30 * 24 * 60 * 60 * 1000

/-- The `simplifiedBidData` document literal built by `submitBid`,
before `save` runs the pre-save hook.  The breakdown amounts and
milestone dates are written here as exact rationals (60%/30%/10% of the
total), an idealization of the source's IEEE-754 binary64 products
`proposedCost * 0.6` etc., which round to 53 significant bits; the
binary64-faithful values of the stored amounts are modeled separately by
`IsBinary64`/`RoundsTo64`/`double06`/`double03`/`double01` below, and no
operation other than the breakdown-sum analysis computes with these
amounts. -/
def buildSubmittedBid (newId projectId vendorProfileId : OId)
    (req : BidRequest) (now : Nat) : Bid :=
  let start := req.startDate
  let dur := msInMonth req.duration
  { id := newId
    project := projectId
    vendor := vendorProfileId
    costTotal := req.proposedCost
    costCurrency := "INR"
    costBreakdown :=
      [ ⟨"labor", "Labor costs", req.proposedCost * (6 / 10), some req.teamSize⟩,
        ⟨"materials", "Materials and supplies", req.proposedCost * (3 / 10), none⟩,
        ⟨"overhead", "Overhead and profit", req.proposedCost * (1 / 10), none⟩ ]
    timeline :=
      { proposedStartDate := start
        durationValue := req.duration
        durationUnit := "months"
        milestones :=
          [ ⟨"Foundation Complete", start + dur * (3 / 10), 30⟩,
            ⟨"Structure Complete", start + dur * (7 / 10), 40⟩,
            ⟨"Project Complete", start + dur, 30⟩ ] }
    proposalSummary := sanitizeText req.proposal
    statusCurrent := .PENDING
    statusHistory := [⟨.PENDING, now, none⟩]
    negotiations := []
    submittedAt := none
    lastUpdated := now
    clientViewed := false }

/-- How the persistence layer can surface a unique-index violation to the
catch block of `submitBid`: as an error with `code === 11000`, or as an
error named `MongoServerError`. -/
inductive DupErrShape
  | codeE11000
  | mongoServerError
deriving DecidableEq, Repr

/-- A raw driver/validation error as seen by the catch block. -/
structure JsError where
  code : Option Nat
  name : String
deriving DecidableEq, Repr

/-- The raw error each duplicate-violation shape produces. -/
def DupErrShape.toJsError : DupErrShape → JsError
  | .codeE11000 => ⟨some 11000, "MongoError"⟩
  | .mongoServerError => ⟨none, "MongoServerError"⟩

/-- The catch block of `submitBid` for non-`ApiError` failures: duplicate
key errors (either shape) become the duplicate-bid error, validation
errors become `Invalid bid data`, anything else is wrapped as 500. -/
def submitBidCatch (e : JsError) : ApiError :=
  if e.code = some 11000 ∨ e.name = "MongoServerError" then
    ⟨400, "Vendor has already submitted a bid for this project"⟩
  else if e.name = "ValidationError" then
    ⟨400, "Invalid bid data"⟩
  else
    ⟨500, "Error submitting bid"⟩

/-- `submitBid(projectId, vendorId, bidData)`.  The whole operation runs
inside one session whose only write is the insert, so the returned
database is unchanged on every error path.  `dupShape` says how the
driver would surface a duplicate-key violation; `newId` is the ObjectId
minted for the new document. -/
def submitBid (db : DB) (projectId vendorUserId : OId) (req : BidRequest)
    (newId : OId) (dupShape : DupErrShape) (now : Nat) :
    Except ApiError Bid × DB :=
  match db.projects.find? (fun p => p.id = projectId) with
  | none => (.error ⟨404, "Project not found"⟩, db)
  | some project =>
    match db.findVendorByUser vendorUserId with
    | none => (.error ⟨404, "Vendor not found"⟩, db)
    | some vendor =>
      if project.statusCurrent ∉ [ProjectStatus.OPEN, ProjectStatus.IN_REVIEW] then
        (.error ⟨400, "Project is not open for bidding"⟩, db)
      else
        match validateVendorEligibility vendor project with
        | .error e => (.error e, db)
        | .ok _ =>
          let doc := buildSubmittedBid newId projectId vendor.id req now
          if ¬ bidSchemaValid now doc then
            (.error (submitBidCatch ⟨none, "ValidationError"⟩), db)
          else if db.bids.any (fun b => b.project = projectId ∧ b.vendor = vendor.id) then
            (.error (submitBidCatch dupShape.toJsError), db)
          else
            let saved := Bid.saveNew doc now
            (.ok saved, db.saveBid saved)

end BidService

namespace BidService

/-- The effect of the bulk `Bid.updateMany` in `selectBid`: every other
bid on the project whose status is PENDING or IN_REVIEW is set to
REJECTED with a pushed history entry.  `updateMany` bypasses the
pre-save hook, so exactly this one entry is pushed per rejected bid. -/
def rejectOtherBids (pid keep : OId) (now : Nat) (bids : List Bid) : List Bid :=
  bids.map fun b =>
    if b.project = pid ∧ b.id ≠ keep ∧
        b.statusCurrent ∈ [BidStatus.PENDING, BidStatus.IN_REVIEW] then
      { b with statusCurrent := .REJECTED,
               statusHistory :=
                 b.statusHistory ++ [⟨.REJECTED, now, some "Another bid was selected"⟩] }
    else b

/-- The three ways `selectBid` can return: the idempotent already-accepted
short-circuit (which skips the cache invalidation), an actual selection
(followed by cache invalidation), or a failure. -/
inductive SelectOutcome
  | alreadyAccepted (bid : Bid) (project : Project)
  | selected (bid : Bid) (project : Project)
  | failed (e : ApiError)
deriving DecidableEq, Repr

/-- `selectBid(bidId, projectId, clientId)`.  The two `bid.updateStatus`
calls save WITHOUT the session, so their writes hit the database
immediately; only the bulk rejection and the project save are staged on
the session.  `txFails` injects a failure of that transactional tail
(write conflict, validation failure, commit error): the catch block then
aborts the transaction, discarding only the staged writes. -/
def selectBid (db : DB) (bidId projectId clientUserId : OId) (now : Nat)
    (txFails : Bool) : SelectOutcome × DB :=
  match db.findClientProfile clientUserId with
  | none => (.failed ⟨404, "Client profile not found"⟩, db)
  | some profileId =>
    match db.findBid bidId, db.findProjectOwned projectId profileId with
    | none, _ => (.failed ⟨404, "Bid not found"⟩, db)
    | some _, none => (.failed ⟨404, "Project not found or unauthorized"⟩, db)
    | some bid, some project =>
      if bid.statusCurrent = .ACCEPTED then
        (.alreadyAccepted bid project, db)
      else if bid.statusCurrent ≠ .PENDING ∧ bid.statusCurrent ≠ .IN_REVIEW then
        (.failed ⟨400, "Bid cannot be selected in current status"⟩, db)
      else if project.statusCurrent ≠ .OPEN ∧ project.statusCurrent ≠ .IN_REVIEW then
        (.failed ⟨400, "Project must be open or in review to select bids"⟩, db)
      else
        let step1 : Except ApiError (Bid × DB) :=
          if bid.statusCurrent = .PENDING then
            match bid.updateStatus .IN_REVIEW (some "Bid under final review") now with
            | .error e => .error e
            | .ok bA => .ok (bA, db.saveBid bA)
          else .ok (bid, db)
        match step1 with
        | .error e => (.failed e, db)
        | .ok (bidA, db1) =>
          match bidA.updateStatus .ACCEPTED (some "Selected by client") now with
          | .error e => (.failed e, db1)
          | .ok bidB =>
            let db2 := db1.saveBid bidB
            if txFails then
              (.failed ⟨500, "Error selecting bid"⟩, db2)
            else
              let db3 := { db2 with bids := rejectOtherBids projectId bidId now db2.bids }
              let p1 := { project with
                statusCurrent := .IN_PROGRESS,
                statusHistory := project.statusHistory ++
                  [⟨.IN_PROGRESS, now, some "Bid selected and accepted"⟩] }
              let p2 := Project.saveDoc project p1 now
              (.selected bidB p2, db3.saveProject p2)

/-- `rejectBid(bidId, projectId, clientId, reason)`. -/
def rejectBid (db : DB) (bidId projectId clientUserId : OId) (reason : String)
    (now : Nat) : Except ApiError Bid × DB :=
  let sanitizedReason := sanitizeText reason
  match db.findClientProfile clientUserId with
  | none => (.error ⟨404, "Client profile not found"⟩, db)
  | some profileId =>
    match db.findBid bidId, db.findProjectOwned projectId profileId with
    | none, _ => (.error ⟨404, "Bid not found"⟩, db)
    | some _, none => (.error ⟨404, "Project not found or unauthorized"⟩, db)
    | some bid, some _ =>
      if bid.statusCurrent = .REJECTED then
        (.ok bid, db)
      else if bid.statusCurrent = .ACCEPTED then
        (.error ⟨400, "Cannot reject an accepted bid"⟩, db)
      else
        match bid.updateStatus .REJECTED (some sanitizedReason) now with
        | .error e => (.error e, db)
        | .ok b1 => (.ok b1, db.saveBid b1)

/-- A patch sent to `updateBid`.  `_sanitizeUpdateData` strips the
immutable fields (`project`, `vendor`, `status`, metadata, identity,
timestamps) before the remaining fields are assigned onto the document. -/
structure BidPatch where
  costTotal : Option ℚ
  timeline : Option BidTimeline
  proposalSummary : Option String
  project : Option OId
  vendor : Option OId
  status : Option BidStatus
deriving DecidableEq, Repr

/-- `_sanitizeUpdateData`: delete the immutable fields from the patch. -/
def sanitizeUpdateData (p : BidPatch) : BidPatch :=
  { p with project := none, vendor := none, status := none }

/-- `Object.assign(bid, sanitized)`: assign every field present in the
patch onto the document. -/
def applyPatch (b : Bid) (p : BidPatch) : Bid :=
  { b with costTotal := p.costTotal.getD b.costTotal
           timeline := p.timeline.getD b.timeline
           proposalSummary := (p.proposalSummary.map sanitizeText).getD b.proposalSummary
           project := p.project.getD b.project
           vendor := p.vendor.getD b.vendor
           statusCurrent := p.status.getD b.statusCurrent }

/-- `updateBid(bidId, vendorId, updateData)`. -/
def updateBid (db : DB) (bidId vendorUserId : OId) (patch : BidPatch)
    (now : Nat) : Except ApiError Bid × DB :=
  match db.findVendorByUser vendorUserId with
  | none => (.error ⟨404, "Vendor profile not found"⟩, db)
  | some vendor =>
    match db.findBid bidId with
    | none => (.error ⟨404, "Bid not found"⟩, db)
    | some bid =>
      if bid.vendor ≠ vendor.id then
        (.error ⟨403, "Not authorized to access this bid"⟩, db)
      else if bid.statusCurrent ∉ [BidStatus.DRAFT, BidStatus.PENDING] then
        (.error ⟨400, "Cannot update bid in current status"⟩, db)
      else
        let b1 := applyPatch bid (sanitizeUpdateData patch)
        if ¬ bidSchemaValid now b1 then
          (.error ⟨400, "Invalid update data"⟩, db)
        else
          let b2 := Bid.saveDoc bid b1 now
          (.ok b2, db.saveBid b2)

/-- `deleteBid(bidId, vendorId)`: ownership check, PENDING-only, hard
delete.  Returns the deleted bid. -/
def deleteBid (db : DB) (bidId vendorUserId : OId) : Except ApiError Bid × DB :=
  match db.findVendorByUser vendorUserId with
  | none => (.error ⟨404, "Vendor profile not found"⟩, db)
  | some vendor =>
    match db.findBid bidId with
    | none => (.error ⟨404, "Bid not found"⟩, db)
    | some bid =>
      if bid.vendor ≠ vendor.id then
        (.error ⟨403, "Not authorized to delete this bid"⟩, db)
      else if bid.statusCurrent ≠ .PENDING then
        (.error ⟨400, "Only pending bids can be deleted"⟩, db)
      else
        (.ok bid, db.deleteBid bidId)

/-- `negotiateBid(bidId, negotiationData, initiatorType)`. -/
def negotiateBid (db : DB) (bidId : OId) (kind : String)
    (message : Option String) (initiatorType : String) (now : Nat) :
    Except ApiError Bid × DB :=
  match db.findBid bidId with
  | none => (.error ⟨404, "Bid not found"⟩, db)
  | some bid =>
    if bid.statusCurrent ∉ [BidStatus.PENDING, BidStatus.IN_REVIEW] then
      (.error ⟨400, "Bid cannot be negotiated in current status"⟩, db)
    else
      let b1 := bid.addNegotiation initiatorType kind (message.map sanitizeText) now
      (.ok b1, db.saveBid b1)

/-! ## Competitive analysis -/

/-- `bidSchema.statics.findCompetingBids(projectId, excludeBidId)`: bids of
the project whose status is PENDING or IN_REVIEW, the excluded id removed,
sorted ascending by proposed total cost. -/
def findCompetingBids (db : DB) (pid excludeId : OId) : List Bid :=
  List.insertionSort (fun a b => a.costTotal ≤ b.costTotal)
    (db.bids.filter fun b => b.project = pid ∧
      b.statusCurrent ∈ [BidStatus.PENDING, BidStatus.IN_REVIEW] ∧ b.id ≠ excludeId)

/-- The market statistics object of `_calculateBidStatistics`. -/
structure BidStats where
  averageCost : ℚ
  medianCost : ℚ
  costMin : ℚ
  costMax : ℚ
  averageDuration : ℚ
  bidCount : Nat
deriving DecidableEq, Repr

/-- `_calculateBidStatistics(bid, competingBids)`: with no competitors the
stats degenerate to the subject bid's own values with `bidCount = 1`;
otherwise average/median/range/average-duration over the competitors only
and `bidCount = competitors + 1`.  The median picks index
`floor(n / 2)` of the ascending-sorted costs; min and max fold over the
cost list as `Math.min`/`Math.max` do. -/
def calculateBidStatistics (bid : Bid) (competingBids : List Bid) : BidStats :=
  match competingBids with
  | [] =>
    { averageCost := bid.costTotal
      medianCost := bid.costTotal
      costMin := bid.costTotal
      costMax := bid.costTotal
      averageDuration := bid.timeline.durationValue
      bidCount := 1 }
  | cb :: rest =>
    let costs := (cb :: rest).map (fun b => b.costTotal)
    let durations := (cb :: rest).map (fun b => b.timeline.durationValue)
    let sortedCosts := List.insertionSort (fun a b => a ≤ b) costs
    { averageCost := costs.sum / (costs.length : ℚ)
      medianCost := sortedCosts.getD (sortedCosts.length / 2) 0
      costMin := (rest.map (fun b => b.costTotal)).foldl min cb.costTotal
      costMax := (rest.map (fun b => b.costTotal)).foldl max cb.costTotal
      averageDuration := durations.sum / (durations.length : ℚ)
      bidCount := (cb :: rest).length + 1 }

/-- The analysis object returned by `getCompetitiveAnalysis` (market
part; the competitiveness score is out of scope here). -/
structure Analysis where
  bidCost : ℚ
  bidDuration : ℚ
  market : BidStats
deriving DecidableEq, Repr

/-- `getCompetitiveAnalysis(bidId)`, database part. -/
def getCompetitiveAnalysis (db : DB) (bidId : OId) : Except ApiError Analysis :=
  match db.findBid bidId with
  | none => .error ⟨404, "Bid not found"⟩
  | some bid =>
    let competing := findCompetingBids db bid.project bid.id
    .ok ⟨bid.costTotal, bid.timeline.durationValue, calculateBidStatistics bid competing⟩

end BidService

/-! ## Cache layer and orchestrator-level operations -/

/-- `List.isPrefixOf`-based embedding of JavaScript
`String.prototype.includes`: does `needle` occur as a contiguous
substring of the haystack? -/
def charsInclude (needle : List Char) : List Char → Bool
  | [] => needle.isPrefixOf []
  | c :: t => needle.isPrefixOf (c :: t) || charsInclude needle t

/-- `hay.includes(needle)` on strings. -/
def strIncludes (hay needle : String) : Bool :=
  charsInclude needle.data hay.data

/-- The two TTL caches of `BidService`, as insertion-ordered association
lists from key to entry-expiry time.  (The cached payloads play no role
in the invalidation logic, so only keys and expiries are kept.) -/
structure Caches where
  bidCache : List (String × Nat)
  projectBidsCache : List (String × Nat)
deriving DecidableEq, Repr

/-- The key under which `getProjectBids` caches one page of a project's
bid list. -/
def projectBidsCacheKey (pid status : String) (page limit : Nat) : String :=
  "project_bids_" ++ pid ++ "_" ++ status ++ "_" ++ toString page ++ "_" ++
    toString limit

/-- The key under which `getCompetitiveAnalysis` caches its result. -/
def competitiveAnalysisCacheKey (bidId : OId) : String :=
  "competitive_analysis_" ++ bidId

namespace BidService

/-- `_clearProjectBidCaches(projectId)`: delete from `projectBidsCache`
every key containing `project_bids_<projectId>`, and from `bidCache`
every key containing `competitive_analysis_`. -/
def clearProjectBidCaches (c : Caches) (pid : OId) : Caches :=
  { projectBidsCache := c.projectBidsCache.filter
      (fun e => ! strIncludes e.1 ("project_bids_" ++ pid)),
    bidCache := c.bidCache.filter
      (fun e => ! strIncludes e.1 "competitive_analysis_") }

end BidService

/-- The full mutable state of the orchestrator: the database plus the two
caches. -/
structure Svc where
  db : DB
  caches : Caches
deriving DecidableEq, Repr

namespace BidService

/-- `submitBid` at orchestrator level: no cache invalidation is performed
on any path. -/
def submitBidOp (s : Svc) (projectId vendorUserId : OId) (req : BidRequest)
    (newId : OId) (dupShape : DupErrShape) (now : Nat) :
    Except ApiError Bid × Svc :=
  let r := submitBid s.db projectId vendorUserId req newId dupShape now
  (r.1, ⟨r.2, s.caches⟩)

/-- `updateBid` at orchestrator level: no cache invalidation is performed
on any path. -/
def updateBidOp (s : Svc) (bidId vendorUserId : OId) (patch : BidPatch)
    (now : Nat) : Except ApiError Bid × Svc :=
  let r := updateBid s.db bidId vendorUserId patch now
  (r.1, ⟨r.2, s.caches⟩)

/-- `selectBid` at orchestrator level: after an actual selection commits
it runs `_clearProjectBidCaches(projectId)`; the idempotent
already-accepted short-circuit returns before the invalidation, and error
paths leave the caches untouched. -/
def selectBidOp (s : Svc) (bidId projectId clientUserId : OId) (now : Nat)
    (txFails : Bool) : Except ApiError (Bid × Project) × Svc :=
  let r := selectBid s.db bidId projectId clientUserId now txFails
  match r.1 with
  | .alreadyAccepted b p => (.ok (b, p), ⟨r.2, s.caches⟩)
  | .selected b p => (.ok (b, p), ⟨r.2, clearProjectBidCaches s.caches projectId⟩)
  | .failed e => (.error e, ⟨r.2, s.caches⟩)

/-- `rejectBid` at orchestrator level: no cache invalidation is performed
on any path. -/
def rejectBidOp (s : Svc) (bidId projectId clientUserId : OId)
    (reason : String) (now : Nat) : Except ApiError Bid × Svc :=
  let r := rejectBid s.db bidId projectId clientUserId reason now
  (r.1, ⟨r.2, s.caches⟩)

/-- `deleteBid` at orchestrator level: on success it runs
`_clearProjectBidCaches(bid.project)`. -/
def deleteBidOp (s : Svc) (bidId vendorUserId : OId) :
    Except ApiError Bid × Svc :=
  let r := deleteBid s.db bidId vendorUserId
  match r.1 with
  | .ok bid => (.ok bid, ⟨r.2, clearProjectBidCaches s.caches bid.project⟩)
  | .error e => (.error e, ⟨r.2, s.caches⟩)

/-- `negotiateBid` at orchestrator level: no cache invalidation is
performed on any path. -/
def negotiateBidOp (s : Svc) (bidId : OId) (kind : String)
    (message : Option String) (initiatorType : String) (now : Nat) :
    Except ApiError Bid × Svc :=
  let r := negotiateBid s.db bidId kind message initiatorType now
  (r.1, ⟨r.2, s.caches⟩)

end BidService

/-! ## Concrete fixtures -/

/-- Generic success test for `Except` results. -/
def exceptIsOk {ε α : Type} : Except ε α → Bool
  | .ok _ => true
  | .error _ => false

def sampleMilestones : List Milestone :=
  [⟨"Foundation Complete", 110, 30⟩, ⟨"Structure Complete", 170, 40⟩,
   ⟨"Project Complete", 200, 30⟩]

def sampleTimeline : BidTimeline := ⟨100, 3, "months", sampleMilestones⟩

/-- A 100-character proposal summary (the schema minimum). -/
def summary100 : String := String.mk (List.replicate 100 'a')

def bidB1 : Bid :=
  { id := "B1", project := "P1", vendor := "V1", costTotal := 100000,
    costCurrency := "INR", costBreakdown := [], timeline := sampleTimeline,
    proposalSummary := summary100, statusCurrent := .PENDING,
    statusHistory := [⟨.PENDING, 0, none⟩], negotiations := [],
    submittedAt := some 0, lastUpdated := 0, clientViewed := false }

def bidB2 : Bid := { bidB1 with id := "B2", vendor := "V2", costTotal := 120000 }

def vendorV1 : Vendor := ⟨"V1", "uv1", "active", ["residential"], 10, 4, true⟩

def projectP1 : Project :=
  ⟨"P1", "CP1", "residential", none, none, .OPEN, [⟨.OPEN, 0, none⟩], 0, 0⟩

/-- Two pending bids on the OPEN project P1, owned by client user uc1. -/
def db2Bids : DB := ⟨[bidB1, bidB2], [projectP1], [vendorV1], [("uc1", "CP1")]⟩

/-! ## C2: the bid transition table -/

/-- The transition table exactly as the specification enumerates it,
as the set of allowed (current, requested) pairs.  Spec-side definition,
compared against the source-side `validTransitions`. -/
def specTransitionTable : List (BidStatus × BidStatus) :=
  [(.DRAFT, .PENDING), (.DRAFT, .WITHDRAWN),
   (.PENDING, .IN_REVIEW), (.PENDING, .WITHDRAWN), (.PENDING, .REJECTED),
   (.IN_REVIEW, .ACCEPTED), (.IN_REVIEW, .REJECTED), (.IN_REVIEW, .PENDING),
   (.ACCEPTED, .IN_REVIEW),
   (.REJECTED, .IN_REVIEW),
   (.WITHDRAWN, .PENDING)]

theorem mem_specTransitionTable_iff (c s : BidStatus) :
    (c, s) ∈ specTransitionTable ↔ s ∈ validTransitions c := by
  cases c <;> cases s <;> decide

/-- **C2.** For every Bid and every requested target state, `updateStatus`
succeeds exactly when the (current, requested) pair is in the table
DRAFT→{PENDING, WITHDRAWN}, PENDING→{IN_REVIEW, WITHDRAWN, REJECTED},
IN_REVIEW→{ACCEPTED, REJECTED, PENDING}, ACCEPTED→{IN_REVIEW},
REJECTED→{IN_REVIEW}, WITHDRAWN→{PENDING}; any other attempted transition
fails with an error naming the current and requested states (no document
is saved, so the Bid is left unchanged). -/
theorem bid_updateStatus_matches_spec_table
    (b : Bid) (s : BidStatus) (reason : Option String) (now : Nat) :
    ((b.statusCurrent, s) ∈ specTransitionTable ↔
       ∃ b2, b.updateStatus s reason now = .ok b2) ∧
    ((b.statusCurrent, s) ∉ specTransitionTable →
       b.updateStatus s reason now = .error ⟨400,
         "Invalid status transition from " ++ b.statusCurrent.name ++
           " to " ++ s.name⟩) := by
  have hiff := mem_specTransitionTable_iff b.statusCurrent s
  constructor
  · constructor
    · intro h
      unfold Bid.updateStatus
      rw [if_pos (hiff.mp h)]
      exact ⟨_, rfl⟩
    · rintro ⟨b2, hb2⟩
      by_contra h
      have hnot : s ∉ validTransitions b.statusCurrent :=
        fun hc => h (hiff.mpr hc)
      simp [Bid.updateStatus, hnot] at hb2
  · intro h
    have hnot : s ∉ validTransitions b.statusCurrent :=
      fun hc => h (hiff.mpr hc)
    simp [Bid.updateStatus, hnot, invalidTransitionMsg]

theorem bid_updateStatus_matches_spec_table_witness :
    (∃ b2, bidB1.updateStatus .IN_REVIEW none 5 = .ok b2) ∧
    bidB1.updateStatus .ACCEPTED none 5 = .error ⟨400,
      "Invalid status transition from PENDING to ACCEPTED"⟩ :=
  ⟨(bid_updateStatus_matches_spec_table bidB1 .IN_REVIEW none 5).1.mp
      (by decide),
   (bid_updateStatus_matches_spec_table bidB1 .ACCEPTED none 5).2
      (by decide)⟩

/-! ## C5: history entries per transition -/

/-- **C5.** Contrary to the exactly-one-entry claim, a successful
`updateStatus` appends TWO history entries: the explicit push carrying the
reason, then a second push (without the reason) by the pre-save hook,
which sees `status.current` as modified.  The project-status change inside
`selectBid` likewise appends two entries to the project's history (the
explicit push plus the pre-save hook's push): after selecting a bid on a
project whose history held 1 entry, the project history holds 3. -/
theorem updateStatus_appends_two_history_entries :
    bidB1.updateStatus .IN_REVIEW (some "review") 7 =
      .ok { bidB1 with
        statusCurrent := .IN_REVIEW,
        statusHistory := bidB1.statusHistory ++
          [⟨.IN_REVIEW, 7, some "review"⟩, ⟨.IN_REVIEW, 7, none⟩],
        lastUpdated := 7 } ∧
    ((BidService.selectBid db2Bids "B1" "P1" "uc1" 9 false).2.projects.map
        (fun p => p.statusHistory.length)) = [3] := by decide

/-! ## C4: idempotent selection of an accepted bid -/

/-- **C4.** `selectBid` on a bid that is already ACCEPTED is an idempotent
no-op: it returns the bid and the project as they are, with no error, no
state transition, no history append, and an unchanged database. -/
theorem selectBid_idempotent_on_accepted
    (db : DB) (bidId pid uid profileId : OId) (now : Nat) (txFails : Bool)
    (bid : Bid) (project : Project)
    (hprof : db.findClientProfile uid = some profileId)
    (hbid : db.findBid bidId = some bid)
    (hproj : db.findProjectOwned pid profileId = some project)
    (hacc : bid.statusCurrent = .ACCEPTED) :
    BidService.selectBid db bidId pid uid now txFails =
      (.alreadyAccepted bid project, db) := by
  simp [BidService.selectBid, hprof, hbid, hproj, hacc]

def bidB1acc : Bid := { bidB1 with statusCurrent := .ACCEPTED }

def dbAccepted : DB := ⟨[bidB1acc, bidB2], [projectP1], [vendorV1], [("uc1", "CP1")]⟩

theorem selectBid_idempotent_on_accepted_witness :
    BidService.selectBid dbAccepted "B1" "P1" "uc1" 5 false =
      (.alreadyAccepted bidB1acc projectP1, dbAccepted) :=
  selectBid_idempotent_on_accepted dbAccepted "B1" "P1" "uc1" "CP1" 5 false
    bidB1acc projectP1 (by decide) (by decide) (by decide) (by decide)

/-! ## C1: atomicity of bid selection -/

/-- **C1.** The acceptance write escapes the transaction: inside
`selectBid` the `bid.updateStatus(...)` calls save WITHOUT the session,
while only the bulk rejection and the project save carry it.  If the
transactional tail fails, the abort rolls back the rejections and the
project update but the selected bid stays ACCEPTED in the database — a
partial acceptance (accepted bid, competitor still PENDING, project still
OPEN) is observable, and a subsequent `selectBid` on the competitor then
leaves TWO bids of the same project in ACCEPTED state. -/
theorem selectBid_partial_acceptance_observable :
    (BidService.selectBid db2Bids "B1" "P1" "uc1" 5 true).1 =
      .failed ⟨500, "Error selecting bid"⟩ ∧
    (((BidService.selectBid db2Bids "B1" "P1" "uc1" 5 true).2.findBid "B1").map
        Bid.statusCurrent = some .ACCEPTED) ∧
    (((BidService.selectBid db2Bids "B1" "P1" "uc1" 5 true).2.findBid "B2").map
        Bid.statusCurrent = some .PENDING) ∧
    ((((BidService.selectBid db2Bids "B1" "P1" "uc1" 5 true).2.projects.find?
        (fun p => p.id = "P1")).map Project.statusCurrent) = some .OPEN) ∧
    (((BidService.selectBid
          (BidService.selectBid db2Bids "B1" "P1" "uc1" 5 true).2
          "B2" "P1" "uc1" 6 false).2.bids.filter
        (fun b => b.statusCurrent = .ACCEPTED)).map Bid.id = ["B1", "B2"]) := by
  decide

/-! ## C3: duplicate bid submission -/

/-- **C3.** When a bid for the same (project, vendor) pair already exists,
`submitBid` always fails with the duplicate-bid conflict error and leaves
the database (in particular the first bid) unchanged — and the result is
the same whichever way the persistence layer surfaces the unique-index
violation (`code === 11000` or an error named `MongoServerError`): the
catch block treats both identically. -/
theorem submitBid_duplicate_yields_conflict
    (db : DB) (pid uid newId : OId) (req : BidService.BidRequest)
    (shape : BidService.DupErrShape) (now : Nat)
    (project : Project) (vendor : Vendor)
    (hproj : db.projects.find? (fun p => p.id = pid) = some project)
    (hven : db.findVendorByUser uid = some vendor)
    (hopen : project.statusCurrent ∈ [ProjectStatus.OPEN, ProjectStatus.IN_REVIEW])
    (helig : BidService.validateVendorEligibility vendor project = .ok ())
    (hvalid : bidSchemaValid now
      (BidService.buildSubmittedBid newId pid vendor.id req now) = true)
    (hdup : db.bids.any (fun b => b.project = pid ∧ b.vendor = vendor.id) = true) :
    BidService.submitBid db pid uid req newId shape now =
      (.error ⟨400, "Vendor has already submitted a bid for this project"⟩, db) := by
  have hdup2 : ∃ x ∈ db.bids, x.project = pid ∧ x.vendor = vendor.id := by
    simpa using hdup
  cases shape <;>
    simp [BidService.submitBid, hproj, hven, hopen, helig, hvalid, hdup2,
      BidService.submitBidCatch, BidService.DupErrShape.toJsError]

/-- The simplified bid request used by witnesses. -/
def reqFix : BidService.BidRequest := ⟨50000, 100, 2, 5, summary100⟩

/-- The document `submitBid` builds from `reqFix` passes the schema
validators. -/
theorem reqFix_doc_valid :
    bidSchemaValid 50
      (BidService.buildSubmittedBid "B9" "P1" vendorV1.id reqFix 50) = true := by
  simp only [bidSchemaValid, BidService.buildSubmittedBid, BidService.msInMonth,
    timelineValid, milestoneValid, costItemValid, reqFix, decide_eq_true_eq,
    List.all_cons, List.all_nil, Bool.and_true, Bool.and_eq_true]
  exact ⟨by norm_num, ⟨⟨by norm_num, by norm_num⟩, by norm_num, by norm_num⟩,
    by decide, by norm_num, by norm_num,
    ⟨by decide, by norm_num, by norm_num⟩,
    ⟨by decide, by norm_num, by norm_num⟩,
    by decide, by norm_num, by norm_num⟩

theorem submitBid_duplicate_yields_conflict_witness :
    BidService.submitBid db2Bids "P1" "uv1" reqFix "B9" .mongoServerError 50 =
      (.error ⟨400, "Vendor has already submitted a bid for this project"⟩,
       db2Bids) :=
  submitBid_duplicate_yields_conflict db2Bids "P1" "uv1" "B9" reqFix
    .mongoServerError 50 projectP1 vendorV1 (by decide) (by decide) (by decide)
    (by decide) reqFix_doc_valid (by decide)

/-! ## C6: eligibility rules -/

theorem jsGtOpt_eq_true_iff (a : Option ℚ) (b : ℚ) :
    jsGtOpt a b = true ↔ ∃ x, a = some x ∧ b < x := by
  cases a <;> simp [jsGtOpt]

theorem jsGtOpt_eq_false_iff (a : Option ℚ) (b : ℚ) (hb : 0 ≤ b) :
    jsGtOpt a b = false ↔ a.getD 0 ≤ b := by
  cases a with
  | none => simp [jsGtOpt, hb]
  | some x => simp [jsGtOpt, not_lt]

/-- **C6.** `_validateVendorEligibility` checks, in order and with the
first failure winning: (1) the vendor is active, (2) when the vendor
declares a non-empty service list without the wildcard entry `"NA"` the
project type must be among it, (3) years in business ≥ the project's
minimum-experience preference (absent preference = 0), (4) average
rating ≥ the minimum-rating preference (absent preference = 0); the
vendor's verification flag is never consulted.  (The hypotheses are the
schema bounds: years and rating are non-negative.) -/
theorem eligibility_rules_in_order (v : Vendor) (p : Project)
    (hy : 0 ≤ v.yearsInBusiness) (hr : 0 ≤ v.ratingsAverage) :
    (BidService.validateVendorEligibility v p = .ok () ↔
       (v.status = "active" ∧
        (v.services = [] ∨ "NA" ∈ v.services ∨ p.projectType ∈ v.services) ∧
        p.minExperience.getD 0 ≤ v.yearsInBusiness ∧
        p.minRating.getD 0 ≤ v.ratingsAverage)) ∧
    (v.status ≠ "active" →
       BidService.validateVendorEligibility v p =
         .error ⟨400, "Vendor account is not active"⟩) ∧
    (v.status = "active" →
     v.services ≠ [] → "NA" ∉ v.services → p.projectType ∉ v.services →
       BidService.validateVendorEligibility v p =
         .error ⟨400, "Project type does not match vendor services"⟩) ∧
    (v.status = "active" →
     (v.services = [] ∨ "NA" ∈ v.services ∨ p.projectType ∈ v.services) →
     v.yearsInBusiness < p.minExperience.getD 0 →
       BidService.validateVendorEligibility v p =
         .error ⟨400, "Vendor does not meet minimum experience requirement"⟩) ∧
    (v.status = "active" →
     (v.services = [] ∨ "NA" ∈ v.services ∨ p.projectType ∈ v.services) →
     p.minExperience.getD 0 ≤ v.yearsInBusiness →
     v.ratingsAverage < p.minRating.getD 0 →
       BidService.validateVendorEligibility v p =
         .error ⟨400, "Vendor does not meet minimum rating requirement"⟩) ∧
    (∀ ver : Bool,
       BidService.validateVendorEligibility { v with isVerified := ver } p =
         BidService.validateVendorEligibility v p) := by
  refine ⟨?_, ?_, ?_, ?_, ?_, fun ver => rfl⟩
  · unfold BidService.validateVendorEligibility
    split_ifs with h1 h2 h3 h4
    · simp [h1]
    · simp only [not_not] at h1
      constructor
      · intro h; cases h
      · rintro ⟨-, hsv, -, -⟩
        exact absurd hsv (by tauto)
    · rw [jsGtOpt_eq_true_iff] at h3
      obtain ⟨m, hm, hlt⟩ := h3
      constructor
      · intro h; cases h
      · rintro ⟨-, -, hle, -⟩
        rw [hm] at hle
        exact absurd hle (not_le.mpr hlt)
    · rw [jsGtOpt_eq_true_iff] at h4
      obtain ⟨m, hm, hlt⟩ := h4
      constructor
      · intro h; cases h
      · rintro ⟨-, -, -, hle⟩
        rw [hm] at hle
        exact absurd hle (not_le.mpr hlt)
    · simp only [not_not] at h1
      simp only [Bool.not_eq_true] at h3 h4
      simp only [true_iff]
      refine ⟨h1, by tauto, ?_, ?_⟩
      · exact (jsGtOpt_eq_false_iff _ _ hy).mp h3
      · exact (jsGtOpt_eq_false_iff _ _ hr).mp h4
  · intro h
    unfold BidService.validateVendorEligibility
    rw [if_pos h]
  · intro h1 hs1 hs2 hs3
    unfold BidService.validateVendorEligibility
    rw [if_neg (not_not_intro h1), if_pos ⟨hs1, hs2, hs3⟩]
  · intro h1 hsv hlt
    cases hme : p.minExperience with
    | none =>
      rw [hme] at hlt
      exact absurd hlt (not_lt.mpr hy)
    | some m =>
      unfold BidService.validateVendorEligibility
      rw [if_neg (not_not_intro h1), if_neg (by tauto),
        if_pos (by rw [jsGtOpt_eq_true_iff]; exact ⟨m, hme, by rw [hme] at hlt; exact hlt⟩)]
  · intro h1 hsv hexp hlt
    cases hmr : p.minRating with
    | none =>
      rw [hmr] at hlt
      exact absurd hlt (not_lt.mpr hr)
    | some m =>
      unfold BidService.validateVendorEligibility
      rw [if_neg (not_not_intro h1), if_neg (by tauto),
        if_neg (by simp only [Bool.not_eq_true]; exact (jsGtOpt_eq_false_iff _ _ hy).mpr hexp),
        if_pos (by rw [jsGtOpt_eq_true_iff]; exact ⟨m, hmr, by rw [hmr] at hlt; exact hlt⟩)]

theorem eligibility_rules_in_order_witness :
    BidService.validateVendorEligibility vendorV1 projectP1 = .ok () ∧
    BidService.validateVendorEligibility
        { vendorV1 with status := "suspended" } projectP1 =
      .error ⟨400, "Vendor account is not active"⟩ :=
  ⟨(eligibility_rules_in_order vendorV1 projectP1 (by decide) (by decide)).1.mpr
      (by exact ⟨rfl, by decide, by decide, by decide⟩),
   (eligibility_rules_in_order { vendorV1 with status := "suspended" } projectP1
      (by decide) (by decide)).2.1 (by decide)⟩

/-! ## C7: competitive market statistics -/

theorem foldl_min_mem {α : Type} [LinearOrder α] :
    ∀ (l : List α) (a : α), l.foldl min a ∈ a :: l
  | [], _ => by simp
  | x :: t, a => by
    simp only [List.foldl_cons]
    have h := foldl_min_mem t (min a x)
    rcases List.mem_cons.mp h with h | h
    · rcases min_choice a x with hm | hm
      · rw [h, hm]; exact List.mem_cons_self _ _
      · rw [h, hm]; exact List.mem_cons_of_mem _ (List.mem_cons_self _ _)
    · exact List.mem_cons_of_mem _ (List.mem_cons_of_mem _ h)

theorem foldl_min_le {α : Type} [LinearOrder α] :
    ∀ (l : List α) (a : α), l.foldl min a ≤ a ∧ ∀ c ∈ l, l.foldl min a ≤ c
  | [], a => ⟨le_refl a, by simp⟩
  | x :: t, a => by
    simp only [List.foldl_cons]
    obtain ⟨h1, h2⟩ := foldl_min_le t (min a x)
    refine ⟨le_trans h1 (min_le_left _ _), ?_⟩
    intro c hc
    rcases List.mem_cons.mp hc with rfl | hc
    · exact le_trans h1 (min_le_right _ _)
    · exact h2 c hc

theorem foldl_max_mem {α : Type} [LinearOrder α] :
    ∀ (l : List α) (a : α), l.foldl max a ∈ a :: l
  | [], _ => by simp
  | x :: t, a => by
    simp only [List.foldl_cons]
    have h := foldl_max_mem t (max a x)
    rcases List.mem_cons.mp h with h | h
    · rcases max_choice a x with hm | hm
      · rw [h, hm]; exact List.mem_cons_self _ _
      · rw [h, hm]; exact List.mem_cons_of_mem _ (List.mem_cons_self _ _)
    · exact List.mem_cons_of_mem _ (List.mem_cons_of_mem _ h)

theorem le_foldl_max {α : Type} [LinearOrder α] :
    ∀ (l : List α) (a : α), a ≤ l.foldl max a ∧ ∀ c ∈ l, c ≤ l.foldl max a
  | [], a => ⟨le_refl a, by simp⟩
  | x :: t, a => by
    simp only [List.foldl_cons]
    obtain ⟨h1, h2⟩ := le_foldl_max t (max a x)
    refine ⟨le_trans (le_max_left _ _) h1, ?_⟩
    intro c hc
    rcases List.mem_cons.mp hc with rfl | hc
    · exact le_trans (le_max_right _ _) h1
    · exact h2 c hc

/-- **C7.** The market statistics are computed over the competing bids
(excluding the subject): with zero competitors every statistic equals the
subject bid's own cost/duration and `bidCount = 1`; otherwise the average
cost satisfies `average * n = sum of costs`, the median is the element at
index `floor(n / 2)` of ANY ascending sorting of the costs, the cost range
is attained and bounds every cost, the average duration satisfies the
analogous product equation, and `bidCount = competitors + 1`. -/
theorem bidStatistics_spec (bid : Bid) (competing : List Bid) :
    (competing = [] →
       BidService.calculateBidStatistics bid competing =
         ⟨bid.costTotal, bid.costTotal, bid.costTotal, bid.costTotal,
          bid.timeline.durationValue, 1⟩) ∧
    (competing ≠ [] →
       (BidService.calculateBidStatistics bid competing).averageCost *
           ((competing.map (fun b => b.costTotal)).length : ℚ) =
         (competing.map (fun b => b.costTotal)).sum ∧
       (∀ s : List ℚ, (competing.map (fun b => b.costTotal)).Perm s →
          s.Sorted (· ≤ ·) →
          (BidService.calculateBidStatistics bid competing).medianCost =
            s.getD (s.length / 2) 0) ∧
       (BidService.calculateBidStatistics bid competing).costMin ∈
         competing.map (fun b => b.costTotal) ∧
       (∀ c ∈ competing.map (fun b => b.costTotal),
          (BidService.calculateBidStatistics bid competing).costMin ≤ c) ∧
       (BidService.calculateBidStatistics bid competing).costMax ∈
         competing.map (fun b => b.costTotal) ∧
       (∀ c ∈ competing.map (fun b => b.costTotal),
          c ≤ (BidService.calculateBidStatistics bid competing).costMax) ∧
       (BidService.calculateBidStatistics bid competing).averageDuration *
           (competing.length : ℚ) =
         (competing.map (fun b => b.timeline.durationValue)).sum ∧
       (BidService.calculateBidStatistics bid competing).bidCount =
         competing.length + 1) := by
  cases competing with
  | nil =>
    exact ⟨fun _ => rfl, fun h => absurd rfl h⟩
  | cons cb rest =>
    refine ⟨fun h => List.noConfusion h, fun _ => ?_⟩
    simp only [BidService.calculateBidStatistics, List.map_cons]
    have hlen : ((cb.costTotal :: rest.map (fun b => b.costTotal)).length : ℚ) ≠ 0 := by
      rw [List.length_cons]
      exact_mod_cast (rest.map (fun b => b.costTotal)).length.succ_ne_zero
    refine ⟨div_mul_cancel₀ _ hlen, ?_, ?_, ?_, ?_, ?_, ?_, by simp⟩
    · intro s hp hs
      have hseq : s = List.insertionSort (fun a b => a ≤ b)
          (cb.costTotal :: rest.map (fun b => b.costTotal)) :=
        List.eq_of_perm_of_sorted
          (hp.symm.trans (List.perm_insertionSort _ _).symm) hs
          (List.sorted_insertionSort _ _)
      rw [hseq]
    · exact foldl_min_mem _ _
    · intro c hc
      rcases List.mem_cons.mp hc with rfl | hc
      · exact (foldl_min_le _ _).1
      · exact (foldl_min_le _ _).2 c hc
    · exact foldl_max_mem _ _
    · intro c hc
      rcases List.mem_cons.mp hc with rfl | hc
      · exact (le_foldl_max _ _).1
      · exact (le_foldl_max _ _).2 c hc
    · have hd : ((cb.timeline.durationValue :: rest.map
          (fun b => b.timeline.durationValue)).length : ℚ) ≠ 0 := by
        rw [List.length_cons]
        exact_mod_cast (rest.map (fun b => b.timeline.durationValue)).length.succ_ne_zero
      have h2 := div_mul_cancel₀
        ((cb.timeline.durationValue :: rest.map (fun b => b.timeline.durationValue)).sum) hd
      simpa using h2

def bidB3 : Bid := { bidB1 with id := "B3", vendor := "V3", costTotal := 80000 }

theorem bidStatistics_spec_witness :
    BidService.calculateBidStatistics bidB1 [] =
      ⟨100000, 100000, 100000, 100000, 3, 1⟩ ∧
    (BidService.calculateBidStatistics bidB1 [bidB2, bidB3]).medianCost =
      120000 := by
  constructor
  · exact (bidStatistics_spec bidB1 []).1 rfl
  · have h := (((bidStatistics_spec bidB1 [bidB2, bidB3]).2 (by decide)).2.1)
      [80000, 120000] (by decide) (by decide)
    simpa using h

/-! ## C8 and C10: milestones and cost breakdown of created bids -/

/-- Sum of the milestone payment percentages of a bid. -/
def milestonePctSum (b : Bid) : ℚ :=
  (b.timeline.milestones.map (fun m => m.paymentPercentage)).sum

/-- Inversion: a successful `submitBid` returns exactly the saved
`simplifiedBidData` document for the resolved vendor profile. -/
theorem submitBid_ok_shape
    (db : DB) (pid uid newId : OId) (req : BidService.BidRequest)
    (shape : BidService.DupErrShape) (now : Nat) (bid : Bid) (db2 : DB)
    (hok : BidService.submitBid db pid uid req newId shape now = (.ok bid, db2)) :
    ∃ vendor, db.findVendorByUser uid = some vendor ∧
      bid = Bid.saveNew (BidService.buildSubmittedBid newId pid vendor.id req now) now := by
  unfold BidService.submitBid at hok
  cases hfp : List.find? (fun p => decide (p.id = pid)) db.projects with
  | none => rw [hfp] at hok; simp at hok
  | some project =>
    rw [hfp] at hok
    dsimp only at hok
    cases hfv : db.findVendorByUser uid with
    | none => rw [hfv] at hok; simp at hok
    | some vendor =>
      rw [hfv] at hok
      dsimp only at hok
      by_cases hopen : project.statusCurrent ∉ [ProjectStatus.OPEN, ProjectStatus.IN_REVIEW]
      · rw [if_pos hopen] at hok; simp at hok
      · rw [if_neg hopen] at hok
        cases helig : BidService.validateVendorEligibility vendor project with
        | error e => rw [helig] at hok; simp at hok
        | ok u =>
          rw [helig] at hok
          dsimp only at hok
          by_cases hvalid : ¬ bidSchemaValid now
              (BidService.buildSubmittedBid newId pid vendor.id req now) = true
          · rw [if_pos hvalid] at hok; simp at hok
          · rw [if_neg hvalid] at hok
            by_cases hdup : (db.bids.any fun b =>
                decide (b.project = pid ∧ b.vendor = vendor.id)) = true
            · rw [if_pos hdup] at hok; simp at hok
            · rw [if_neg hdup] at hok
              simp only [Prod.mk.injEq, Except.ok.injEq] at hok
              exact ⟨vendor, rfl, hok.1.symm⟩

/-- **C10 (amended).** Every bid created by `submitBid` carries exactly
three cost-breakdown items — labor at 60% of the proposed total (with the
team size as quantity), materials at 30%, overhead at 10% — and over the
exact-rational idealization of the arithmetic the amounts sum to the
bid's proposed total cost (0.6 + 0.3 + 0.1 = 1 exactly).  The program's
stored binary64 amounts are the roundings of these products and need NOT
sum to the total: see the binary64 counterexample below, where at
proposed cost 1 the stored amounts sum to 1 − 2⁻⁵⁵. -/
theorem submitBid_cost_breakdown
    (db : DB) (pid uid newId : OId) (req : BidService.BidRequest)
    (shape : BidService.DupErrShape) (now : Nat) (bid : Bid) (db2 : DB)
    (hok : BidService.submitBid db pid uid req newId shape now = (.ok bid, db2)) :
    bid.costBreakdown =
      [⟨"labor", "Labor costs", req.proposedCost * (6 / 10), some req.teamSize⟩,
       ⟨"materials", "Materials and supplies", req.proposedCost * (3 / 10), none⟩,
       ⟨"overhead", "Overhead and profit", req.proposedCost * (1 / 10), none⟩] ∧
    (bid.costBreakdown.map (fun c => c.amount)).sum = bid.costTotal ∧
    bid.costTotal = req.proposedCost := by
  obtain ⟨vendor, -, rfl⟩ :=
    submitBid_ok_shape db pid uid newId req shape now bid db2 hok
  refine ⟨?_, ?_, ?_⟩
  · simp [Bid.saveNew, bidPreSave, BidService.buildSubmittedBid]
  · simp [Bid.saveNew, bidPreSave, BidService.buildSubmittedBid]
    ring
  · simp [Bid.saveNew, bidPreSave, BidService.buildSubmittedBid]

/-- A database holding the OPEN project and the vendor but no bids. -/
def dbNoBids : DB := ⟨[], [projectP1], [vendorV1], [("uc1", "CP1")]⟩

/-- The bid document `submitBid` persists for `reqFix` at time 50. -/
def submittedFix : Bid :=
  Bid.saveNew (BidService.buildSubmittedBid "B9" "P1" "V1" reqFix 50) 50

theorem submitBid_fix_ok :
    BidService.submitBid dbNoBids "P1" "uv1" reqFix "B9" .codeE11000 50 =
      (.ok submittedFix, dbNoBids.saveBid submittedFix) := by
  unfold BidService.submitBid
  rw [show List.find? (fun p => decide (p.id = "P1")) dbNoBids.projects =
    some projectP1 from rfl]
  dsimp only
  rw [show dbNoBids.findVendorByUser "uv1" = some vendorV1 from rfl]
  dsimp only
  rw [if_neg (by decide)]
  rw [show BidService.validateVendorEligibility vendorV1 projectP1 =
    .ok () from by decide]
  dsimp only
  rw [if_neg (by simp [reqFix_doc_valid])]
  rw [if_neg (by decide)]
  rfl

theorem submitBid_cost_breakdown_witness :
    (submittedFix.costBreakdown.map (fun c => c.amount)).sum =
      submittedFix.costTotal ∧
    submittedFix.costTotal = 50000 :=
  ⟨(submitBid_cost_breakdown dbNoBids "P1" "uv1" "B9" reqFix .codeE11000 50
      submittedFix (dbNoBids.saveBid submittedFix) submitBid_fix_ok).2.1,
   (submitBid_cost_breakdown dbNoBids "P1" "uv1" "B9" reqFix .codeE11000 50
      submittedFix (dbNoBids.saveBid submittedFix) submitBid_fix_ok).2.2⟩

/-- **C8 (amended).** Bids created by `submitBid` have milestone payment
percentages 30 + 40 + 30 = 100, and the operations that do not replace the
timeline preserve the milestones: every status transition, every
negotiation append, every save, and every update whose patch carries no
timeline.  (That the invariant is NOT maintained by updates that do carry
a timeline is the counterexample theorem.) -/
theorem milestone_sum_amended
    (db : DB) (pid uid newId : OId) (req : BidService.BidRequest)
    (shape : BidService.DupErrShape) (now : Nat) (bid : Bid) (db2 : DB)
    (hok : BidService.submitBid db pid uid req newId shape now = (.ok bid, db2)) :
    milestonePctSum bid = 100 ∧
    (∀ (b : Bid) (s : BidStatus) (r : Option String) (t : Nat) (b2 : Bid),
       b.updateStatus s r t = .ok b2 → b2.timeline = b.timeline) ∧
    (∀ (b : Bid) (i k : String) (m : Option String) (t : Nat),
       (b.addNegotiation i k m t).timeline = b.timeline) ∧
    (∀ (p : BidService.BidPatch), p.timeline = none →
       ∀ b : Bid, (BidService.applyPatch b
         (BidService.sanitizeUpdateData p)).timeline = b.timeline) ∧
    (∀ (orig b : Bid) (t : Nat), (Bid.saveDoc orig b t).timeline = b.timeline) := by
  have hsave : ∀ (orig b : Bid) (t : Nat),
      (Bid.saveDoc orig b t).timeline = b.timeline := by
    intro orig b t
    unfold Bid.saveDoc bidPreSave
    dsimp only
    split_ifs <;> rfl
  refine ⟨?_, ?_, ?_, ?_, hsave⟩
  · obtain ⟨vendor, -, rfl⟩ :=
      submitBid_ok_shape db pid uid newId req shape now bid db2 hok
    simp [milestonePctSum, Bid.saveNew, bidPreSave, BidService.buildSubmittedBid]
    norm_num
  · intro b s r t b2 h
    unfold Bid.updateStatus at h
    split at h
    · simp only [Except.ok.injEq] at h
      rw [← h, hsave]
    · cases h
  · intro b i k m t
    unfold Bid.addNegotiation
    rw [hsave]
  · intro p hp b
    simp [BidService.applyPatch, BidService.sanitizeUpdateData, hp]

theorem milestone_sum_amended_witness :
    milestonePctSum submittedFix = 100 :=
  (milestone_sum_amended dbNoBids "P1" "uv1" "B9" reqFix .codeE11000 50
    submittedFix (dbNoBids.saveBid submittedFix) submitBid_fix_ok).1

def badTimeline : BidTimeline := ⟨100, 2, "months", [⟨"Half", 200, 50⟩]⟩

/-- A patch replacing the timeline with a single 50% milestone: every
per-item validator passes (50 lies in [0, 100]), yet the percentages no
longer sum to 100. -/
def badPatch : BidService.BidPatch := ⟨none, some badTimeline, none, none, none, none⟩

/-- **C8 (counterexample).** `_sanitizeUpdateData` does not strip the
timeline, and the schema checks each milestone percentage only
individually, so `updateBid` persists a bid whose milestone percentages
sum to 50: the claimed sum-to-100 invariant over all persisted bids is not
preserved by update. -/
theorem milestone_sum_not_invariant :
    milestonePctSum bidB1 = 100 ∧
    exceptIsOk (BidService.updateBid db2Bids "B1" "uv1" badPatch 60).1 = true ∧
    ((BidService.updateBid db2Bids "B1" "uv1" badPatch 60).2.findBid "B1").map
        milestonePctSum = some 50 := by
  refine ⟨?_, by decide, ?_⟩
  · simp [milestonePctSum, bidB1, sampleTimeline, sampleMilestones]
    norm_num
  · have hms : ((BidService.updateBid db2Bids "B1" "uv1" badPatch 60).2.findBid
        "B1").map (fun b => b.timeline.milestones) = some [⟨"Half", 200, 50⟩] := by
      decide
    cases hfind : (BidService.updateBid db2Bids "B1" "uv1" badPatch 60).2.findBid
        "B1" with
    | none => rw [hfind] at hms; cases hms
    | some b =>
      rw [hfind] at hms
      simp only [Option.map_some'] at hms ⊢
      have hb : b.timeline.milestones = [⟨"Half", 200, 50⟩] :=
        Option.some.inj hms
      simp [milestonePctSum, hb]

/-! ## C9: cache invalidation -/

/-- Discriminator for the actual-selection outcome of `selectBid`. -/
def SelectOutcome.isSelected : BidService.SelectOutcome → Bool
  | .selected _ _ => true
  | _ => false

/-- **C9 (counterexample).** `rejectBid` performs no cache invalidation on
any path: after it successfully rejects bid B2 of project P1, the cached
bid-list page for P1 and the cached competitive-analysis entry are both
still present (they can only die by TTL expiry or eviction), contradicting
the claim that every mutating operation invalidates the keys it affects. -/
theorem rejectBid_leaves_stale_cache :
    (let s : Svc := ⟨db2Bids,
       ⟨[(competitiveAnalysisCacheKey "B2", 999)],
        [(projectBidsCacheKey "P1" "all" 1 20, 999)]⟩⟩
     let r := BidService.rejectBidOp s "B2" "P1" "uc1" "too costly" 9
     exceptIsOk r.1 = true ∧
     ((r.2.db.findBid "B2").map Bid.statusCurrent = some .REJECTED) ∧
     r.2.caches = s.caches) := by decide

/-- **C9 (amended).** Cache invalidation per mutating operation:
`submitBid`, `updateBid`, `rejectBid` and `negotiateBid` never touch the
caches on any path; `selectBid` invalidates only after an actual selection
and `deleteBid` only after a successful delete, each by running
`_clearProjectBidCaches`, which removes every bid-list key of the affected
project and every competitive-analysis key. -/
theorem cache_invalidation_per_operation (s : Svc) :
    (∀ pid uid req newId shape now,
       (BidService.submitBidOp s pid uid req newId shape now).2.caches =
         s.caches) ∧
    (∀ bidId uid patch now,
       (BidService.updateBidOp s bidId uid patch now).2.caches = s.caches) ∧
    (∀ bidId pid uid reason now,
       (BidService.rejectBidOp s bidId pid uid reason now).2.caches =
         s.caches) ∧
    (∀ bidId k m i now,
       (BidService.negotiateBidOp s bidId k m i now).2.caches = s.caches) ∧
    (∀ bidId pid uid now fl,
       SelectOutcome.isSelected
           (BidService.selectBid s.db bidId pid uid now fl).1 = true →
       (BidService.selectBidOp s bidId pid uid now fl).2.caches =
         BidService.clearProjectBidCaches s.caches pid) ∧
    (∀ bidId uid b,
       (BidService.deleteBid s.db bidId uid).1 = .ok b →
       (BidService.deleteBidOp s bidId uid).2.caches =
         BidService.clearProjectBidCaches s.caches b.project) ∧
    (∀ (c : Caches) (pid : OId),
       (∀ e ∈ (BidService.clearProjectBidCaches c pid).projectBidsCache,
          strIncludes e.1 ("project_bids_" ++ pid) = false) ∧
       (∀ e ∈ (BidService.clearProjectBidCaches c pid).bidCache,
          strIncludes e.1 "competitive_analysis_" = false)) := by
  refine ⟨fun _ _ _ _ _ _ => rfl, fun _ _ _ _ => rfl, fun _ _ _ _ _ => rfl,
    fun _ _ _ _ _ => rfl, ?_, ?_, ?_⟩
  · intro bidId pid uid now fl hsel
    unfold BidService.selectBidOp
    dsimp only
    cases hr : (BidService.selectBid s.db bidId pid uid now fl).1 with
    | alreadyAccepted b p => rw [hr] at hsel; cases hsel
    | failed e => rw [hr] at hsel; cases hsel
    | selected b p => rfl
  · intro bidId uid b hdel
    unfold BidService.deleteBidOp
    dsimp only
    rw [hdel]
  · intro c pid
    constructor
    · intro e he
      have h2 := (List.mem_filter.mp he).2
      simpa using h2
    · intro e he
      have h2 := (List.mem_filter.mp he).2
      simpa using h2

/-- The orchestrator state used by the cache-invalidation witness. -/
def svcFix : Svc := ⟨db2Bids,
  ⟨[(competitiveAnalysisCacheKey "B1", 999)],
   [(projectBidsCacheKey "P1" "all" 1 20, 999)]⟩⟩

theorem cache_invalidation_per_operation_witness :
    (BidService.rejectBidOp svcFix "B2" "P1" "uc1" "r" 9).2.caches =
      svcFix.caches ∧
    (BidService.selectBidOp svcFix "B1" "P1" "uc1" 5 false).2.caches =
      BidService.clearProjectBidCaches svcFix.caches "P1" ∧
    (BidService.deleteBidOp svcFix "B1" "uv1").2.caches =
      BidService.clearProjectBidCaches svcFix.caches bidB1.project :=
  ⟨(cache_invalidation_per_operation svcFix).2.2.1 "B2" "P1" "uc1" "r" 9,
   (cache_invalidation_per_operation svcFix).2.2.2.2.1 "B1" "P1" "uc1" 5 false
     (by decide),
   (cache_invalidation_per_operation svcFix).2.2.2.2.2.1 "B1" "uv1" bidB1
     (by decide)⟩

/-! ## C10: binary64 arithmetic of the stored breakdown amounts

JavaScript numbers are IEEE-754 binary64 values, so the products
`proposedCost * 0.6`, `* 0.3`, `* 0.1` that `submitBid` stores are
correctly-rounded doubles, not the exact rationals of the idealized
embedding above.  The model below covers the normal range, which contains
every value arising here. -/

/-- The IEEE-754 binary64 (JavaScript number) values of the normal range:
the rationals `m * 2^f` with `2^52 ≤ |m| < 2^53`. -/
def IsBinary64 (x : ℚ) : Prop :=
  ∃ m f : ℤ, x = (m : ℚ) * (2:ℚ) ^ f ∧ (2:ℤ)^52 ≤ |m| ∧ |m| < (2:ℤ)^53

/-- `y` is the binary64 value a JavaScript arithmetic operation with
exact result `x` stores: `y` is representable and no representable value
is closer to `x` (round to nearest).  IEEE breaks exact ties toward the
even mantissa; no tie arises at any input considered below, where strict
nearest-ness pins `y` uniquely. -/
def RoundsTo64 (x y : ℚ) : Prop :=
  IsBinary64 y ∧ ∀ z : ℚ, IsBinary64 z → |x - y| ≤ |x - z|

/-- A representable value rounds to itself (exact operations do not
round; in particular a product with the factor 1 is stored unchanged). -/
theorem roundsTo64_self (x : ℚ) (hx : IsBinary64 x) : RoundsTo64 x x :=
  ⟨hx, fun z _ => by simp⟩

/-- Uniqueness of rounding: a grid value `k * 2^f₀` of the binade whose
ulp is `2^f₀` that lies strictly within half an ulp of `x` (itself inside
that binade, at least one ulp below its top) is the round-to-nearest
binary64 value of `x`. -/
theorem roundsTo64_of_near (x : ℚ) (k f₀ : ℤ)
    (hk1 : (2:ℤ)^52 ≤ k) (hk2 : k < (2:ℤ)^53)
    (hlo : (2:ℚ)^52 * (2:ℚ)^f₀ ≤ x)
    (hhi : x ≤ ((2:ℚ)^53 - 1) * (2:ℚ)^f₀)
    (hnear : |x - (k:ℚ) * (2:ℚ)^f₀| < (2:ℚ)^f₀ / 2) :
    RoundsTo64 x ((k:ℚ) * (2:ℚ)^f₀) := by
  have h2 : (0:ℚ) < 2 := by norm_num
  have hupos : (0:ℚ) < (2:ℚ)^f₀ := zpow_pos h2 _
  have hkpos : (0:ℤ) < k := lt_of_lt_of_le (by positivity) hk1
  have h53 : (2:ℚ)^53 = 2 * (2:ℚ)^52 := by norm_num
  have hhalf : (2:ℚ)^(f₀ - 1) = (2:ℚ)^f₀ / 2 := by
    rw [zpow_sub_one₀ (by norm_num : (2:ℚ) ≠ 0)]
    ring
  have hdouble : (2:ℚ)^(f₀ + 1) = 2 * (2:ℚ)^f₀ := by
    rw [zpow_add_one₀ (by norm_num : (2:ℚ) ≠ 0)]
    ring
  constructor
  · exact ⟨k, f₀, rfl, by rwa [abs_of_pos hkpos], by rwa [abs_of_pos hkpos]⟩
  · rintro z ⟨m, f, hz, hm1, hm2⟩
    have hfpos : (0:ℚ) < (2:ℚ)^f := zpow_pos h2 _
    have habsz : |z| = (|m| : ℤ) * (2:ℚ)^f := by
      rw [hz, abs_mul, abs_of_pos hfpos, Int.cast_abs]
    rcases lt_trichotomy f f₀ with hf | hf | hf
    · have hfle : (2:ℚ)^f ≤ (2:ℚ)^(f₀ - 1) :=
        zpow_le_zpow_right₀ (by norm_num) (by omega)
      have hmq : (|m| : ℚ) ≤ (2:ℚ)^53 - 1 := by
        have hmz : |m| ≤ (2:ℤ)^53 - 1 := by omega
        exact_mod_cast hmz
      have hzb : |z| ≤ ((2:ℚ)^53 - 1) * ((2:ℚ)^f₀ / 2) := by
        rw [habsz, ← hhalf]
        exact mul_le_mul (by exact_mod_cast hmq) hfle (le_of_lt hfpos) (by norm_num)
      have hzx : |z| ≤ x - (2:ℚ)^f₀ / 2 := by
        have hkey : ((2:ℚ)^53 - 1) * ((2:ℚ)^f₀ / 2) =
            (2:ℚ)^52 * (2:ℚ)^f₀ - (2:ℚ)^f₀ / 2 := by
          rw [h53]; ring
        calc |z| ≤ ((2:ℚ)^53 - 1) * ((2:ℚ)^f₀ / 2) := hzb
        _ = (2:ℚ)^52 * (2:ℚ)^f₀ - (2:ℚ)^f₀ / 2 := hkey
        _ ≤ x - (2:ℚ)^f₀ / 2 := by linarith
      have hxz : (2:ℚ)^f₀ / 2 ≤ x - z := by
        have hza : z ≤ |z| := le_abs_self z
        linarith
      calc |x - (k:ℚ) * (2:ℚ)^f₀| ≤ (2:ℚ)^f₀ / 2 := le_of_lt hnear
      _ ≤ x - z := hxz
      _ ≤ |x - z| := le_abs_self _
    · subst hf
      by_cases hmk : m = k
      · subst hmk
        rw [hz]
      · have hdiff : (1:ℚ) ≤ |(m:ℚ) - (k:ℚ)| := by
          have hmz : (1:ℤ) ≤ |m - k| := Int.one_le_abs (sub_ne_zero.mpr hmk)
          have hc : ((1:ℤ):ℚ) ≤ ((|m - k| : ℤ) : ℚ) := by exact_mod_cast hmz
          rw [Int.cast_abs] at hc
          push_cast at hc ⊢
          exact hc
        have hzy : (2:ℚ)^f ≤ |z - (k:ℚ) * (2:ℚ)^f| := by
          rw [hz, ← sub_mul, abs_mul, abs_of_pos hfpos]
          calc (2:ℚ)^f = 1 * (2:ℚ)^f := (one_mul _).symm
          _ ≤ |(m:ℚ) - (k:ℚ)| * (2:ℚ)^f :=
              mul_le_mul_of_nonneg_right hdiff (le_of_lt hfpos)
        have htri : |z - (k:ℚ) * (2:ℚ)^f| ≤ |x - z| + |x - (k:ℚ) * (2:ℚ)^f| := by
          calc |z - (k:ℚ) * (2:ℚ)^f| ≤ |z - x| + |x - (k:ℚ) * (2:ℚ)^f| :=
              abs_sub_le z x ((k:ℚ) * (2:ℚ)^f)
          _ = |x - z| + |x - (k:ℚ) * (2:ℚ)^f| := by rw [abs_sub_comm]
        linarith
    · have hfge : (2:ℚ)^(f₀ + 1) ≤ (2:ℚ)^f :=
        zpow_le_zpow_right₀ (by norm_num) (by omega)
      have hmq : ((2:ℚ)^52) ≤ ((|m| : ℤ) : ℚ) := by exact_mod_cast hm1
      have hzb : (2:ℚ)^52 * (2 * (2:ℚ)^f₀) ≤ |z| := by
        rw [habsz, ← hdouble]
        exact mul_le_mul hmq hfge (by positivity) (by positivity)
      have hzx : x + (2:ℚ)^f₀ ≤ |z| := by
        have hkey : (2:ℚ)^52 * (2 * (2:ℚ)^f₀) =
            ((2:ℚ)^53 - 1) * (2:ℚ)^f₀ + (2:ℚ)^f₀ := by
          rw [h53]; ring
        calc x + (2:ℚ)^f₀ ≤ ((2:ℚ)^53 - 1) * (2:ℚ)^f₀ + (2:ℚ)^f₀ := by linarith
        _ = (2:ℚ)^52 * (2 * (2:ℚ)^f₀) := hkey.symm
        _ ≤ |z| := hzb
      rcases le_or_lt 0 z with hz0 | hz0
      · have hxz : (2:ℚ)^f₀ / 2 ≤ z - x := by
          rw [abs_of_nonneg hz0] at hzx
          linarith
        calc |x - (k:ℚ) * (2:ℚ)^f₀| ≤ (2:ℚ)^f₀ / 2 := le_of_lt hnear
        _ ≤ z - x := hxz
        _ ≤ |x - z| := by rw [abs_sub_comm]; exact le_abs_self _
      · have hxpos : (0:ℚ) < x := by
          have h520 : (0:ℚ) < (2:ℚ)^52 * (2:ℚ)^f₀ := by positivity
          linarith
        have hxz : (2:ℚ)^f₀ / 2 ≤ x - z := by
          have h52big : (2:ℚ)^f₀ / 2 ≤ (2:ℚ)^52 * (2:ℚ)^f₀ := by
            have h1 : (1:ℚ) ≤ (2:ℚ)^52 * 2 := by norm_num
            nlinarith
          linarith
        calc |x - (k:ℚ) * (2:ℚ)^f₀| ≤ (2:ℚ)^f₀ / 2 := le_of_lt hnear
        _ ≤ x - z := hxz
        _ ≤ |x - z| := le_abs_self _

/-- The binary64 value denoted by the source literal `0.6`
(`BID_CONSTANTS.COST_BREAKDOWN.LABOR_PERCENTAGE`):
`5404319552844595 * 2⁻⁵³`. -/
def double06 : ℚ := 5404319552844595 / 2 ^ 53

/-- The binary64 value denoted by the source literal `0.3`
(`MATERIALS_PERCENTAGE`): `5404319552844595 * 2⁻⁵⁴`. -/
def double03 : ℚ := 5404319552844595 / 2 ^ 54

/-- The binary64 value denoted by the source literal `0.1`
(`OVERHEAD_PERCENTAGE`): `7205759403792794 * 2⁻⁵⁶`. -/
def double01 : ℚ := 3602879701896397 / 2 ^ 55

/-- The three breakdown amounts `submitBid` stores for a bid whose
proposed total cost is 1: the binary64 products `1 * 0.6`, `1 * 0.3`,
`1 * 0.1` are exact (multiplication by 1 of a representable value rounds
to itself), so the stored amounts are exactly the binary64 values of the
three percentage literals. -/
def fpBreakdownAtOne : List ℚ := [double06, double03, double01]

/-- `double06` is the round-to-nearest binary64 value of 6/10 (binade
[1/2, 1), ulp 2⁻⁵³; the exact value sits 1/5 of an ulp above the grid
point). -/
theorem roundsTo64_06 : RoundsTo64 (6/10) double06 := by
  have hval : double06 = ((5404319552844595:ℤ):ℚ) * (2:ℚ)^(-53:ℤ) := by
    rw [double06, zpow_neg]
    push_cast
    norm_num
  rw [hval]
  apply roundsTo64_of_near (6/10) 5404319552844595 (-53) (by norm_num) (by norm_num)
  · rw [zpow_neg]
    norm_num
  · rw [zpow_neg]
    norm_num
  · rw [zpow_neg]
    push_cast
    rw [abs_of_pos (by norm_num)]
    norm_num

/-- `double03` is the round-to-nearest binary64 value of 3/10 (binade
[1/4, 1/2), ulp 2⁻⁵⁴). -/
theorem roundsTo64_03 : RoundsTo64 (3/10) double03 := by
  have hval : double03 = ((5404319552844595:ℤ):ℚ) * (2:ℚ)^(-54:ℤ) := by
    rw [double03, zpow_neg]
    push_cast
    norm_num
  rw [hval]
  apply roundsTo64_of_near (3/10) 5404319552844595 (-54) (by norm_num) (by norm_num)
  · rw [zpow_neg]; norm_num
  · rw [zpow_neg]; norm_num
  · rw [zpow_neg]
    push_cast
    rw [abs_of_pos (by norm_num)]
    norm_num

/-- `double01` is the round-to-nearest binary64 value of 1/10 (binade
[1/16, 1/8), ulp 2⁻⁵⁶; the grid point sits 2/5 of an ulp above the exact
value). -/
theorem roundsTo64_01 : RoundsTo64 (1/10) double01 := by
  have hval : double01 = ((7205759403792794:ℤ):ℚ) * (2:ℚ)^(-56:ℤ) := by
    rw [double01, zpow_neg]
    push_cast
    norm_num
  rw [hval]
  apply roundsTo64_of_near (1/10) 7205759403792794 (-56) (by norm_num) (by norm_num)
  · rw [zpow_neg]; norm_num
  · rw [zpow_neg]; norm_num
  · rw [zpow_neg]
    push_cast
    rw [abs_of_neg (by norm_num)]
    norm_num

/-- **C10 (counterexample).** In the program's IEEE-754 binary64
arithmetic the stored breakdown amounts do NOT sum to the proposed total.
For a bid with `proposedCost = 1` (schema-valid: the schema only requires
a non-negative cost) the three stored amounts are the binary64 values of
the literals 0.6, 0.3 and 0.1 — each proved to be the correct rounding,
with the multiplications by 1 exact — and their exact sum is
`36028797018963967/2^55 = 1 − 2⁻⁵⁵ ≠ 1`, even though the unrounded
rationals 6/10 + 3/10 + 1/10 sum to 1.  The sum-equals-total identity of
the idealized `buildSubmittedBid` therefore fails on the program's stored
doubles. -/
theorem fp_breakdown_sum_ne_total :
    RoundsTo64 (6/10) double06 ∧ RoundsTo64 (3/10) double03 ∧
    RoundsTo64 (1/10) double01 ∧
    RoundsTo64 (1 * double06) double06 ∧
    RoundsTo64 (1 * double03) double03 ∧
    RoundsTo64 (1 * double01) double01 ∧
    fpBreakdownAtOne.sum = 1 - (2:ℚ)^(-55:ℤ) ∧
    fpBreakdownAtOne.sum ≠ 1 ∧
    (6/10 : ℚ) + 3/10 + 1/10 = 1 := by
  refine ⟨roundsTo64_06, roundsTo64_03, roundsTo64_01, ?_, ?_, ?_, ?_, ?_, by norm_num⟩
  · rw [one_mul]
    exact roundsTo64_self _ roundsTo64_06.1
  · rw [one_mul]
    exact roundsTo64_self _ roundsTo64_03.1
  · rw [one_mul]
    exact roundsTo64_self _ roundsTo64_01.1
  · simp only [fpBreakdownAtOne, List.sum_cons, List.sum_nil, double06, double03,
      double01, zpow_neg]
    norm_num
  · simp only [fpBreakdownAtOne, List.sum_cons, List.sum_nil, double06, double03,
      double01]
    norm_num
